import Mathlib

/-!
Shallow embedding of the lonboard WKB-to-GeoArrow conversion core
(`src/lonboard/_geoarrow/parse_wkb.py`) and of the layer accessor validators
(`src/lonboard/layer.py`).

Modelling conventions:
* pyarrow chunked arrays are lists of lists (chunks of cells); a pyarrow
  table is an ordered list of (field, chunked column) pairs.
* field metadata is an optional association list of string keys and values
  (pyarrow: `field.metadata` is `None` or a dict); `if not field.metadata`
  in Python is falsy both for `None` and for an empty dict.
* a WKB payload is modelled by the geometry it decodes to; the decoder
  (`shapely.from_wkb`) is external and trusted (spec section 1), decoding a
  payload cell to its geometry and failing on non-binary input.
* pyarrow `Array.slice(offset, length)` clamps: it never reads past the end
  of the array, so `arraySlice` is drop-then-take on lists.
* exceptions are modelled with `Except String`.
-/

namespace Lonboard

/-- The closed set of concrete GeoArrow geometry types (spec section 9). -/
inductive GeomType where
  | point
  | lineString
  | polygon
  | multiPoint
  | multiLineString
  | multiPolygon
  deriving DecidableEq

/-- A decoded geometry object (a shapely object): either null or a geometry of
a concrete type.  Coordinate payloads play no role in the verified
properties, so they are not carried. -/
inductive Geom where
  | null
  | ofType (t : GeomType)
  deriving DecidableEq

/-- A cell of a pyarrow column: a WKB payload (identified with the geometry it
decodes to), a native GeoArrow geometry value, or any non-geometry value. -/
inductive Cell where
  | wkb (g : Geom)
  | geo (g : Geom)
  | val (n : Int)
  deriving DecidableEq

/-- A pyarrow ChunkedArray of cells: the ordered list of its chunks. -/
abbrev ChunkedColumn := List (List Cell)

/-- A pyarrow field: name plus optional open string-keyed metadata map. -/
structure Field where
  name : String
  metadata : Option (List (String × String))
  deriving DecidableEq

/-- A pyarrow table: ordered (field, chunked column) pairs. -/
abbrev Table := List (Field × ChunkedColumn)

/-- The metadata key holding the Arrow extension-type name. -/
def EXT_NAME_KEY : String := "ARROW:extension:name"

/-- Modelled from the spec: the metadata key holding the coordinate reference
system string (`lonboard._constants` / `lonboard._geoarrow.crs` are not under
`src/`; spec section 6 specifies a dedicated coordinate-reference-system
metadata key, opaque string value copied verbatim). -/
def CRS_KEY : String := "crs"

/-- The generic WKB extension tag (`src/lonboard/_geoarrow/parse_wkb.py`
docstring: extension name `geoarrow.wkb`). -/
def EXTENSION_NAME.WKB : String := "geoarrow.wkb"

/-- The standards-body WKB extension tag (`src/lonboard/_geoarrow/parse_wkb.py`
docstring: extension name `ogc.wkb`). -/
def EXTENSION_NAME.OGC_WKB : String := "ogc.wkb"

/-- Modelled from the spec: the native geometry extension names of the
`EXTENSION_NAME` enum (`lonboard._constants`, not under `src/`); spec
section 9 fixes the closed variant set. -/
def EXTENSION_NAME.POINT : String := "geoarrow.point"

def EXTENSION_NAME.LINESTRING : String := "geoarrow.linestring"

def EXTENSION_NAME.POLYGON : String := "geoarrow.polygon"

def EXTENSION_NAME.MULTIPOINT : String := "geoarrow.multipoint"

def EXTENSION_NAME.MULTILINESTRING : String := "geoarrow.multilinestring"

def EXTENSION_NAME.MULTIPOLYGON : String := "geoarrow.multipolygon"

/-- The accepted WKB tag set `wkb_names` of `parse_wkb_table`
(`parse_wkb.py` line 19). -/
def wkb_names : List String := [EXTENSION_NAME.WKB, EXTENSION_NAME.OGC_WKB]

/-- Python truthiness of `field.metadata`: `None` and the empty dict are
falsy (`parse_wkb.py` line 24). -/
def metadataTruthy : Option (List (String × String)) → Bool
  | none => false
  | some m => !m.isEmpty

/-- `field.metadata.get(b"ARROW:extension:name")`, ignoring metadata
truthiness: the extension-type-name entry of a field, if any. -/
def fieldExtName (f : Field) : Option String :=
  f.metadata.bind (fun m => m.lookup EXT_NAME_KEY)

/-- The guard of `parse_wkb_table`'s loop body (`parse_wkb.py` lines 24-28):
skip fields with falsy metadata, then test the extension-type name against
`wkb_names`. -/
def isWkbTagged (f : Field) : Bool :=
  if !metadataTruthy f.metadata then false
  else
    match fieldExtName f with
    | some n => wkb_names.contains n
    | none => false

/-- The geometry extension type of each concrete geometry type. -/
def extensionName : GeomType → String
  | .point => EXTENSION_NAME.POINT
  | .lineString => EXTENSION_NAME.LINESTRING
  | .polygon => EXTENSION_NAME.POLYGON
  | .multiPoint => EXTENSION_NAME.MULTIPOINT
  | .multiLineString => EXTENSION_NAME.MULTILINESTRING
  | .multiPolygon => EXTENSION_NAME.MULTIPOLYGON

/-- The multi-variant of a geometry type; multi types are their own
multi-variant (spec section 9 widening lattice). -/
def multiOf : GeomType → GeomType
  | .point => .multiPoint
  | .lineString => .multiLineString
  | .polygon => .multiPolygon
  | .multiPoint => .multiPoint
  | .multiLineString => .multiLineString
  | .multiPolygon => .multiPolygon

/-- Whether a geometry type is a single (non-multi) type. -/
def isSingleType : GeomType → Bool
  | .point => true
  | .lineString => true
  | .polygon => true
  | _ => false

/-- Least upper bound of two geometry types in the widening lattice: equal
types stay, a type and its multi-variant widen to the multi-variant, anything
else is incompatible (spec section 4.3). -/
def lub (a b : GeomType) : Option GeomType :=
  if a = b then some a
  else if multiOf a = multiOf b then some (multiOf a)
  else none

/-- The concrete geometry types present across all non-null geometries of a
decoded column (spec section 4.3). -/
def presentTypes (geoms : List Geom) : List GeomType :=
  geoms.filterMap fun g =>
    match g with
    | .null => none
    | .ofType t => some t

/-- Fold the widening lattice over a list of present types, failing on an
incompatible mix (spec sections 4.3, 7). -/
def widenAll (t : GeomType) : List GeomType → Except String GeomType
  | [] => .ok t
  | u :: us =>
    match lub t u with
    | some w => widenAll w us
    | none => .error "IncompatibleGeometryMix"

/-- Determine the single output geometry type of a decoded column: the
widening-lattice join of all present types; a column with no non-null
geometry is left as an explicit error (spec section 9 open question). -/
def determineGeomType (geoms : List Geom) : Except String GeomType :=
  match presentTypes geoms with
  | [] => .error "GeometryTypeUndetermined"
  | t :: ts => widenAll t ts

/-- Modelled from the spec: `get_field_crs`
(`lonboard._geoarrow.crs`, not under `src/`).  Spec section 4.2 step 1:
extract the CRS string from field metadata; absent metadata or an absent CRS
key yields an unspecified CRS, never an error. -/
def get_field_crs (field : Field) : Option String :=
  field.metadata.bind (fun m => m.lookup CRS_KEY)

/-- Modelled from the spec: `construct_geometry_array`
(`lonboard._geoarrow.extension_types`, not under `src/`).  Spec section 4.3:
determine the geometry type set of all non-null inputs via the widening
lattice (incompatible mixes are a hard error), build a flat native geometry
array with exactly one row per input geometry (null geometries occupy a row),
and tag the new field's metadata with the determined geometry-type extension
name and the supplied CRS string, omitting the CRS key entirely when it is
unspecified. -/
def crsEntry : Option String → List (String × String)
  | some c => [(CRS_KEY, c)]
  | none => []

def construct_geometry_array (geoms : List Geom) (crs_str : Option String) :
    Except String (Field × List Cell) :=
  match determineGeomType geoms with
  | .error e => .error e
  | .ok t =>
    .ok (⟨"geometry", some ((EXT_NAME_KEY, extensionName t) :: crsEntry crs_str)⟩,
      geoms.map Cell.geo)

/-- The trusted external decoder `shapely.from_wkb` on one cell: a WKB
payload decodes to its geometry, anything else is malformed (spec sections
1, 7). -/
def from_wkb : Cell → Except String Geom
  | .wkb g => .ok g
  | _ => .error "MalformedPayload"

/-- `shapely.from_wkb(column)` over the flattened column: decode every
payload, failing the whole column on the first malformed payload
(`parse_wkb.py` line 42; spec section 4.2 step 2, single batch). -/
def from_wkb_array : List Cell → Except String (List Geom)
  | [] => .ok []
  | c :: cs =>
    match from_wkb c with
    | .error e => .error e
    | .ok g =>
      match from_wkb_array cs with
      | .error e => .error e
      | .ok gs => .ok (g :: gs)

/-- pyarrow `Array.slice(offset, length)`: clamps to the available data and
never reads past the end. -/
def arraySlice (xs : List α) (offset length : Nat) : List α :=
  (xs.drop offset).take length

/-- The cumulative chunk-offset list starting at `acc`:
`chunkOffsetsFrom 0 cs = [0, |c0|, |c0|+|c1|, ...]`. -/
def chunkOffsetsFrom (acc : Nat) : List (List α) → List Nat
  | [] => [acc]
  | c :: cs => acc :: chunkOffsetsFrom (acc + c.length) cs

/-- `chunk_offsets` of `parse_wkb_column` (`parse_wkb.py` lines 49-51): the
cumulative row counts of the original column's chunks, starting at 0. -/
def chunk_offsets (column : List (List α)) : List Nat :=
  chunkOffsetsFrom 0 column

/-- The re-slicing step of `parse_wkb_column` (`parse_wkb.py` lines 53-55):
slice the flat constructed array at each pair of adjacent original chunk
offsets. -/
def sliceToChunks (geom_arr : List α) (column : List (List β)) : List (List α) :=
  let offs := chunk_offsets column
  (offs.zip (offs.drop 1)).map fun p => arraySlice geom_arr p.1 (p.2 - p.1)

/-- The body of `parse_wkb_column` (`parse_wkb.py` lines 35-57) with the
geometry array constructor it calls abstracted as a parameter (the callee
`construct_geometry_array` is not under `src/`): extract the CRS, decode the
entire column in one batch, construct the flat geometry array, and re-slice
it at the original chunk boundaries. -/
def parse_wkb_column_with
    (construct : List Geom → Option String → Except String (Field × List Cell))
    (field : Field) (column : ChunkedColumn) :
    Except String (Field × ChunkedColumn) :=
  match from_wkb_array column.flatten with
  | .error e => .error e
  | .ok shapely_arr =>
    match construct shapely_arr (get_field_crs field) with
    | .error e => .error e
    | .ok (new_field, geom_arr) => .ok (new_field, sliceToChunks geom_arr column)

/-- `parse_wkb_column` (`parse_wkb.py` lines 35-57), with the spec-modelled
`construct_geometry_array` plugged in. -/
def parse_wkb_column (field : Field) (column : ChunkedColumn) :
    Except String (Field × ChunkedColumn) :=
  parse_wkb_column_with construct_geometry_array field column

/-- `parse_wkb_table` (`parse_wkb.py` lines 13-32): walk the fields in
declaration order, replace each WKB-tagged field/column pair by the column
converter's output, pass everything else through unchanged; any conversion
failure fails the whole call. -/
def parse_wkb_table : Table → Except String Table
  | [] => .ok []
  | (field, column) :: rest =>
    match (if isWkbTagged field then parse_wkb_column field column
           else .ok (field, column)) with
    | .error e => .error e
    | .ok entry =>
      match parse_wkb_table rest with
      | .error e => .error e
      | .ok rest' => .ok (entry :: rest')

instance {ε α : Type} [DecidableEq ε] [DecidableEq α] : DecidableEq (Except ε α)
  | .error e, .error e' =>
    if h : e = e' then .isTrue (by rw [h])
    else .isFalse (by intro hc; cases hc; exact h rfl)
  | .error _, .ok _ => .isFalse (by intro hc; cases hc)
  | .ok _, .error _ => .isFalse (by intro hc; cases hc)
  | .ok a, .ok a' =>
    if h : a = a' then .isTrue (by rw [h])
    else .isFalse (by intro hc; cases hc; exact h rfl)

/-! ### Lemmas about the re-slicing step -/

/-- Splitting a flat list into pieces shaped like a chunk list: the reference
form of the offset-pair slicing. -/
def splitLike (flat : List α) : List (List β) → List (List α)
  | [] => []
  | c :: cs => flat.take c.length :: splitLike (flat.drop c.length) cs

lemma chunkOffsetsFrom_cons_shape (acc : Nat) (cs : List (List α)) :
    ∃ t, chunkOffsetsFrom acc cs = acc :: t := by
  cases cs <;> exact ⟨_, rfl⟩

lemma sliceToChunks_go (flat : List α) (cs : List (List β)) :
    ∀ acc : Nat,
      ((chunkOffsetsFrom acc cs).zip ((chunkOffsetsFrom acc cs).drop 1)).map
          (fun p => arraySlice flat p.1 (p.2 - p.1)) =
        splitLike (flat.drop acc) cs := by
  induction cs with
  | nil => intro acc; rfl
  | cons c cs ih =>
    intro acc
    obtain ⟨t, ht⟩ := chunkOffsetsFrom_cons_shape (acc + c.length) cs
    have hstep : chunkOffsetsFrom acc (c :: cs) =
        acc :: chunkOffsetsFrom (acc + c.length) cs := rfl
    rw [hstep, ht]
    have ih' := ih (acc + c.length)
    rw [ht] at ih'
    simp only [List.zip_cons_cons, List.drop_succ_cons, List.drop_zero,
      List.map_cons, splitLike] at ih' ⊢
    rw [List.drop_drop]
    refine congrArg₂ List.cons ?_ ih'
    show arraySlice flat acc (acc + c.length - acc) = (flat.drop acc).take c.length
    rw [Nat.add_sub_cancel_left]
    rfl

lemma sliceToChunks_eq_splitLike (flat : List α) (cs : List (List β)) :
    sliceToChunks flat cs = splitLike flat cs := by
  have h := sliceToChunks_go flat cs 0
  simpa [sliceToChunks, chunk_offsets] using h

lemma splitLike_map_length (flat : List α) (cs : List (List β))
    (h : flat.length = (cs.map List.length).sum) :
    (splitLike flat cs).map List.length = cs.map List.length := by
  induction cs generalizing flat with
  | nil => rfl
  | cons c cs ih =>
    simp only [List.map_cons, List.sum_cons] at h
    simp only [splitLike, List.map_cons]
    refine congrArg₂ List.cons ?_ (ih _ ?_)
    · simp only [List.length_take]
      omega
    · simp only [List.length_drop]
      omega

lemma splitLike_flatten_length (flat : List α) (cs : List (List β)) :
    ((splitLike flat cs).flatten).length =
      min flat.length ((cs.map List.length).sum) := by
  induction cs generalizing flat with
  | nil => simp [splitLike]
  | cons c cs ih =>
    simp only [splitLike, List.flatten_cons, List.length_append, ih,
      List.length_take, List.length_drop, List.map_cons, List.sum_cons]
    omega

/-! ### Lemmas about decoding and construction -/

lemma from_wkb_array_length :
    ∀ (cs : List Cell) (gs : List Geom),
      from_wkb_array cs = .ok gs → gs.length = cs.length := by
  intro cs
  induction cs with
  | nil =>
    intro gs h
    injection h with h
    rw [← h]
    rfl
  | cons c cs ih =>
    intro gs h
    unfold from_wkb_array at h
    cases hc : from_wkb c with
    | error e => rw [hc] at h; exact Except.noConfusion h
    | ok g =>
      rw [hc] at h
      cases hcs : from_wkb_array cs with
      | error e => rw [hcs] at h; exact Except.noConfusion h
      | ok gs' =>
        rw [hcs] at h
        injection h with h
        rw [← h, List.length_cons, List.length_cons, ih gs' hcs]

lemma construct_geometry_array_ok (geoms : List Geom) (crs : Option String)
    (nf : Field) (flat : List Cell)
    (h : construct_geometry_array geoms crs = .ok (nf, flat)) :
    ∃ t, determineGeomType geoms = .ok t ∧
      flat = geoms.map Cell.geo ∧
      nf = ⟨"geometry", some ((EXT_NAME_KEY, extensionName t) :: crsEntry crs)⟩ := by
  unfold construct_geometry_array at h
  split at h
  · exact Except.noConfusion h
  next t hd =>
    simp only [Except.ok.injEq, Prod.mk.injEq] at h
    exact ⟨t, hd, h.2.symm, h.1.symm⟩

lemma parse_wkb_column_with_ok
    (construct : List Geom → Option String → Except String (Field × List Cell))
    (field : Field) (column : ChunkedColumn) (nf : Field) (out : ChunkedColumn)
    (h : parse_wkb_column_with construct field column = .ok (nf, out)) :
    ∃ geoms flat,
      from_wkb_array column.flatten = .ok geoms ∧
      construct geoms (get_field_crs field) = .ok (nf, flat) ∧
      out = sliceToChunks flat column := by
  unfold parse_wkb_column_with at h
  split at h
  · exact Except.noConfusion h
  next shapely_arr heq =>
    split at h
    · exact Except.noConfusion h
    next nf2 arr heq2 =>
      simp only [Except.ok.injEq, Prod.mk.injEq] at h
      refine ⟨shapely_arr, arr, heq, ?_, h.2.symm⟩
      rw [← h.1]
      exact heq2

/-- Column-converter success always means: decode succeeded, construction
succeeded on the decoded batch, and the output is the re-slicing of the flat
constructed array of one cell per input row. -/
lemma parse_wkb_column_ok_shape
    (field : Field) (column : ChunkedColumn) (nf : Field) (out : ChunkedColumn)
    (h : parse_wkb_column field column = .ok (nf, out)) :
    ∃ geoms, from_wkb_array column.flatten = .ok geoms ∧
      out = sliceToChunks (geoms.map Cell.geo) column ∧
      ∃ t, determineGeomType geoms = .ok t ∧
        nf = ⟨"geometry",
          some ((EXT_NAME_KEY, extensionName t) ::
            crsEntry (get_field_crs field))⟩ := by
  obtain ⟨geoms, flat, h1, h2, h3⟩ :=
    parse_wkb_column_with_ok construct_geometry_array field column nf out h
  obtain ⟨t, ht, hflat, hnf⟩ := construct_geometry_array_ok geoms _ nf flat h2
  exact ⟨geoms, h1, by rw [h3, hflat], t, ht, hnf⟩

lemma parse_wkb_column_chunk_lengths
    (field : Field) (column : ChunkedColumn) (nf : Field) (out : ChunkedColumn)
    (h : parse_wkb_column field column = .ok (nf, out)) :
    out.map List.length = column.map List.length := by
  obtain ⟨geoms, h1, hout, _, _, _⟩ := parse_wkb_column_ok_shape field column nf out h
  have hlen : (geoms.map Cell.geo).length = (column.map List.length).sum := by
    rw [List.length_map, from_wkb_array_length _ _ h1, List.length_flatten]
  rw [hout, sliceToChunks_eq_splitLike]
  exact splitLike_map_length _ _ hlen

/-! ### Lemmas about the table scanner -/

lemma isWkbTagged_iff (f : Field) :
    isWkbTagged f = true ↔
      (fieldExtName f = some EXTENSION_NAME.WKB ∨
       fieldExtName f = some EXTENSION_NAME.OGC_WKB) := by
  cases hm : f.metadata with
  | none => simp [isWkbTagged, fieldExtName, metadataTruthy, hm]
  | some m =>
    cases m with
    | nil => simp [isWkbTagged, fieldExtName, metadataTruthy, hm, List.lookup]
    | cons kv tl =>
      have hfe : fieldExtName f = (kv :: tl).lookup EXT_NAME_KEY := by
        simp [fieldExtName, hm]
      cases hl : (kv :: tl).lookup EXT_NAME_KEY with
      | none => simp [isWkbTagged, metadataTruthy, hm, hfe, hl]
      | some n =>
        simp [isWkbTagged, metadataTruthy, hm, hfe, hl, wkb_names,
          List.contains_cons]

lemma parse_wkb_table_ok_spec :
    ∀ (table out : Table), parse_wkb_table table = .ok out →
      out.length = table.length ∧
      ∀ i (hi : i < table.length) (ho : i < out.length),
        (isWkbTagged (table.get ⟨i, hi⟩).1 = true ∧
          parse_wkb_column (table.get ⟨i, hi⟩).1 (table.get ⟨i, hi⟩).2 =
            .ok (out.get ⟨i, ho⟩)) ∨
        (isWkbTagged (table.get ⟨i, hi⟩).1 = false ∧
          out.get ⟨i, ho⟩ = table.get ⟨i, hi⟩) := by
  intro table
  induction table with
  | nil =>
    intro out h
    injection h with h
    subst h
    exact ⟨rfl, fun i hi _ => absurd hi (Nat.not_lt_zero i)⟩
  | cons p rest ih =>
    obtain ⟨f, c⟩ := p
    intro out h
    unfold parse_wkb_table at h
    cases htag : isWkbTagged f with
    | true =>
      simp only [htag, if_true] at h
      cases hcol : parse_wkb_column f c with
      | error e => rw [hcol] at h; exact Except.noConfusion h
      | ok entry =>
        rw [hcol] at h
        cases hrest : parse_wkb_table rest with
        | error e => rw [hrest] at h; exact Except.noConfusion h
        | ok rest' =>
          rw [hrest] at h
          injection h with h
          subst h
          obtain ⟨ihlen, ihspec⟩ := ih rest' hrest
          refine ⟨by simp [ihlen], ?_⟩
          intro i hi ho
          cases i with
          | zero => exact Or.inl ⟨htag, hcol⟩
          | succ n =>
            exact ihspec n (Nat.lt_of_succ_lt_succ hi) (Nat.lt_of_succ_lt_succ ho)
    | false =>
      simp only [htag, Bool.false_eq_true, if_false] at h
      cases hrest : parse_wkb_table rest with
      | error e => rw [hrest] at h; exact Except.noConfusion h
      | ok rest' =>
        rw [hrest] at h
        injection h with h
        subst h
        obtain ⟨ihlen, ihspec⟩ := ih rest' hrest
        refine ⟨by simp [ihlen], ?_⟩
        intro i hi ho
        cases i with
        | zero => exact Or.inr ⟨htag, rfl⟩
        | succ n =>
          exact ihspec n (Nat.lt_of_succ_lt_succ hi) (Nat.lt_of_succ_lt_succ ho)

/-! ### Sample concrete inputs used by the witnesses -/

/-- A field tagged with the generic WKB extension name. -/
def sampleWkbField : Field := ⟨"geom", some [(EXT_NAME_KEY, EXTENSION_NAME.WKB)]⟩

/-- A two-chunk WKB point column with chunk lengths `[1, 2]`. -/
def samplePointColumn : ChunkedColumn :=
  [[Cell.wkb (Geom.ofType .point)],
   [Cell.wkb (Geom.ofType .point), Cell.wkb (Geom.ofType .point)]]

/-- The converted output column for `samplePointColumn`. -/
def samplePointColumnOut : ChunkedColumn :=
  [[Cell.geo (Geom.ofType .point)],
   [Cell.geo (Geom.ofType .point), Cell.geo (Geom.ofType .point)]]

/-- The converted output field for `samplePointColumn` without a CRS. -/
def samplePointField : Field :=
  ⟨"geometry", some [(EXT_NAME_KEY, EXTENSION_NAME.POINT)]⟩

/-! ### C1 -/

/-- C1: for every WKB-tagged column, `parse_wkb_column` returns a chunked
array whose chunk length sequence is identical to the input column's — same
number of chunks and, for every chunk index, the same row count — the output
chunks being the slices of the flat constructed geometry array at the
input's cumulative chunk offsets. -/
theorem c1_parse_wkb_column_preserves_chunking
    (field : Field) (column : ChunkedColumn) (nf : Field) (out : ChunkedColumn)
    (h : parse_wkb_column field column = .ok (nf, out)) :
    out.map List.length = column.map List.length ∧
    ∃ geoms flat,
      from_wkb_array column.flatten = .ok geoms ∧
      construct_geometry_array geoms (get_field_crs field) = .ok (nf, flat) ∧
      out = sliceToChunks flat column := by
  refine ⟨parse_wkb_column_chunk_lengths field column nf out h, ?_⟩
  exact parse_wkb_column_with_ok construct_geometry_array field column nf out h

/-- Witness for C1 at a WKB-tagged point column with chunk lengths `[1, 2]`. -/
theorem c1_parse_wkb_column_preserves_chunking_witness :
    samplePointColumnOut.map List.length = samplePointColumn.map List.length ∧
    ∃ geoms flat,
      from_wkb_array samplePointColumn.flatten = .ok geoms ∧
      construct_geometry_array geoms (get_field_crs sampleWkbField) =
        .ok (samplePointField, flat) ∧
      samplePointColumnOut = sliceToChunks flat samplePointColumn :=
  c1_parse_wkb_column_preserves_chunking sampleWkbField samplePointColumn
    samplePointField samplePointColumnOut (by decide)

/-! ### C2 -/

/-- C2: for every table in which no field's metadata carries an
extension-type name in the accepted WKB tag set, `parse_wkb_table` returns
the input table unchanged. -/
theorem c2_parse_wkb_table_identity_when_untagged
    (table : Table)
    (h : ∀ p ∈ table,
      fieldExtName p.1 ≠ some EXTENSION_NAME.WKB ∧
      fieldExtName p.1 ≠ some EXTENSION_NAME.OGC_WKB) :
    parse_wkb_table table = .ok table := by
  induction table with
  | nil => rfl
  | cons p rest ih =>
    obtain ⟨f, c⟩ := p
    have htag : isWkbTagged f = false := by
      rcases h (f, c) (List.mem_cons_self _ _) with ⟨h1, h2⟩
      cases hb : isWkbTagged f with
      | false => rfl
      | true =>
        rcases (isWkbTagged_iff f).mp hb with hw | hw
        · exact absurd hw h1
        · exact absurd hw h2
    unfold parse_wkb_table
    rw [htag]
    simp only [Bool.false_eq_true, if_false]
    rw [ih (fun q hq => h q (List.mem_cons_of_mem _ hq))]

/-- Witness for C2 at a one-column table whose field carries a non-WKB
extension name. -/
theorem c2_parse_wkb_table_identity_when_untagged_witness :
    (∀ p ∈ ([(⟨"a", some [(EXT_NAME_KEY, "other.tag")]⟩, [[Cell.val 7]])] : Table),
      fieldExtName p.1 ≠ some EXTENSION_NAME.WKB ∧
      fieldExtName p.1 ≠ some EXTENSION_NAME.OGC_WKB) ∧
    parse_wkb_table [(⟨"a", some [(EXT_NAME_KEY, "other.tag")]⟩, [[Cell.val 7]])] =
      .ok [(⟨"a", some [(EXT_NAME_KEY, "other.tag")]⟩, [[Cell.val 7]])] :=
  ⟨by decide,
    c2_parse_wkb_table_identity_when_untagged
      [(⟨"a", some [(EXT_NAME_KEY, "other.tag")]⟩, [[Cell.val 7]])] (by decide)⟩

/-! ### C3 -/

/-- A table with one WKB-tagged column followed by one plain column. -/
def sampleMixedTable : Table :=
  [(sampleWkbField, samplePointColumn), (⟨"plain", none⟩, [[Cell.val 1]])]

/-- The scanner output for `sampleMixedTable`. -/
def sampleMixedOut : Table :=
  [(samplePointField, samplePointColumnOut), (⟨"plain", none⟩, [[Cell.val 1]])]

/-- C3: `parse_wkb_table` converts a field if and only if its metadata's
extension-type-name entry equals one of exactly the two accepted tags
`geoarrow.wkb` and `ogc.wkb`; both trigger conversion, and every field whose
tag matches neither is passed through unchanged. -/
theorem c3_parse_wkb_table_converts_iff_wkb_tag
    (table out : Table) (h : parse_wkb_table table = .ok out) :
    out.length = table.length ∧
    ∀ i (hi : i < table.length) (ho : i < out.length),
      ((fieldExtName (table.get ⟨i, hi⟩).1 = some EXTENSION_NAME.WKB ∨
        fieldExtName (table.get ⟨i, hi⟩).1 = some EXTENSION_NAME.OGC_WKB) ∧
        parse_wkb_column (table.get ⟨i, hi⟩).1 (table.get ⟨i, hi⟩).2 =
          .ok (out.get ⟨i, ho⟩)) ∨
      (¬(fieldExtName (table.get ⟨i, hi⟩).1 = some EXTENSION_NAME.WKB ∨
         fieldExtName (table.get ⟨i, hi⟩).1 = some EXTENSION_NAME.OGC_WKB) ∧
        out.get ⟨i, ho⟩ = table.get ⟨i, hi⟩) := by
  obtain ⟨hlen, hspec⟩ := parse_wkb_table_ok_spec table out h
  refine ⟨hlen, fun i hi ho => ?_⟩
  rcases hspec i hi ho with ⟨ht, hc⟩ | ⟨ht, he⟩
  · exact Or.inl ⟨(isWkbTagged_iff _).mp ht, hc⟩
  · refine Or.inr ⟨fun hcontra => ?_, he⟩
    have := (isWkbTagged_iff _).mpr hcontra
    rw [this] at ht
    exact Bool.noConfusion ht

/-- Witness for C3 at a table holding one `geoarrow.wkb`-tagged column and
one untagged column: the tagged entry is converted. -/
theorem c3_parse_wkb_table_converts_iff_wkb_tag_witness :
    ((fieldExtName sampleWkbField = some EXTENSION_NAME.WKB ∨
      fieldExtName sampleWkbField = some EXTENSION_NAME.OGC_WKB) ∧
      parse_wkb_column sampleWkbField samplePointColumn =
        .ok (samplePointField, samplePointColumnOut)) ∨
    (¬(fieldExtName sampleWkbField = some EXTENSION_NAME.WKB ∨
       fieldExtName sampleWkbField = some EXTENSION_NAME.OGC_WKB) ∧
      (samplePointField, samplePointColumnOut) =
        (sampleWkbField, samplePointColumn)) :=
  (c3_parse_wkb_table_converts_iff_wkb_tag sampleMixedTable sampleMixedOut
    (by decide)).2 0 (by decide) (by decide)

/-! ### C5 -/

lemma lookup_crs_meta (x : String) (crs : Option String) :
    ((EXT_NAME_KEY, x) :: crsEntry crs).lookup CRS_KEY = crs := by
  have hne : (CRS_KEY == EXT_NAME_KEY) = false := by decide
  cases crs with
  | none => simp [crsEntry, List.lookup, hne]
  | some c =>
    have hself : (CRS_KEY == CRS_KEY) = true := by decide
    simp [crsEntry, List.lookup, hne, hself]

/-- C5: for every converted column, the output field's CRS metadata is
exactly the input field's CRS string copied verbatim, and when the input
field has no CRS key the output field's metadata has no CRS entry at all,
never an empty placeholder. -/
theorem c5_parse_wkb_column_propagates_crs
    (field : Field) (column : ChunkedColumn) (nf : Field) (out : ChunkedColumn)
    (h : parse_wkb_column field column = .ok (nf, out)) :
    get_field_crs nf = get_field_crs field ∧
    (get_field_crs field = none →
      ∀ m v, nf.metadata = some m → (CRS_KEY, v) ∉ m) := by
  obtain ⟨geoms, h1, hout, t, ht, hnf⟩ :=
    parse_wkb_column_ok_shape field column nf out h
  constructor
  · rw [hnf]
    show ((EXT_NAME_KEY, extensionName t) ::
        crsEntry (get_field_crs field)).lookup CRS_KEY = get_field_crs field
    exact lookup_crs_meta _ _
  · intro hcrs m v hm
    rw [hnf] at hm
    injection hm with hm
    rw [← hm, hcrs]
    intro hmem
    rcases List.mem_cons.mp hmem with heq | hmem2
    · have : CRS_KEY = EXT_NAME_KEY := congrArg Prod.fst heq
      exact absurd this (by decide)
    · exact List.not_mem_nil _ hmem2

/-- A WKB-tagged field carrying CRS metadata `EPSG:4326`. -/
def sampleWkbCrsField : Field :=
  ⟨"geom", some [(EXT_NAME_KEY, EXTENSION_NAME.WKB), (CRS_KEY, "EPSG:4326")]⟩

/-- The converted output field for `sampleWkbCrsField`. -/
def samplePointCrsField : Field :=
  ⟨"geometry", some [(EXT_NAME_KEY, EXTENSION_NAME.POINT), (CRS_KEY, "EPSG:4326")]⟩

/-- Witness for C5 at a column tagged with CRS `EPSG:4326`. -/
theorem c5_parse_wkb_column_propagates_crs_witness :
    get_field_crs samplePointCrsField = get_field_crs sampleWkbCrsField ∧
    (get_field_crs sampleWkbCrsField = none →
      ∀ m v, samplePointCrsField.metadata = some m → (CRS_KEY, v) ∉ m) :=
  c5_parse_wkb_column_propagates_crs sampleWkbCrsField samplePointColumn
    samplePointCrsField samplePointColumnOut (by decide)

/-! ### C7 -/

/-- C7: every field of the input table that has no metadata, no
extension-type-name key, or an extension-type name outside the accepted WKB
tag set is passed through with its column unchanged at its position, and the
output has exactly as many entries as the input, in input order.  (The model
is purely functional, so the input table value itself is never mutated.) -/
theorem c7_parse_wkb_table_passthrough_untouched
    (table out : Table) (h : parse_wkb_table table = .ok out) :
    out.length = table.length ∧
    ∀ i (hi : i < table.length) (ho : i < out.length),
      ((table.get ⟨i, hi⟩).1.metadata = none ∨
       fieldExtName (table.get ⟨i, hi⟩).1 = none ∨
       (∃ t, fieldExtName (table.get ⟨i, hi⟩).1 = some t ∧ t ∉ wkb_names)) →
      out.get ⟨i, ho⟩ = table.get ⟨i, hi⟩ := by
  obtain ⟨hlen, hspec⟩ := parse_wkb_table_ok_spec table out h
  refine ⟨hlen, fun i hi ho hcond => ?_⟩
  rcases hspec i hi ho with ⟨ht, _⟩ | ⟨_, he⟩
  · exfalso
    have hw := (isWkbTagged_iff _).mp ht
    rcases hcond with hm | hn | ⟨t, hsome, hnot⟩
    · have hnone : fieldExtName (table.get ⟨i, hi⟩).1 = none := by
        unfold fieldExtName
        rw [hm]
        rfl
      rw [hnone] at hw
      rcases hw with hw | hw <;> exact Option.noConfusion hw
    · rw [hn] at hw
      rcases hw with hw | hw <;> exact Option.noConfusion hw
    · rw [hsome] at hw
      apply hnot
      rcases hw with hw | hw <;>
        · injection hw with hw
          rw [hw]
          decide
  · exact he

/-- Witness for C7 at the untagged entry of a two-column table. -/
theorem c7_parse_wkb_table_passthrough_untouched_witness :
    sampleMixedOut.get ⟨1, by decide⟩ = sampleMixedTable.get ⟨1, by decide⟩ :=
  (c7_parse_wkb_table_passthrough_untouched sampleMixedTable sampleMixedOut
    (by decide)).2 1 (by decide) (by decide) (Or.inl (by decide))

/-! ### C6 -/

lemma multiOf_multiOf (b : GeomType) : multiOf (multiOf b) = multiOf b := by
  cases b <;> rfl

lemma single_ne_multi (b : GeomType) (hb : isSingleType b = true) :
    b ≠ multiOf b := by
  cases b <;> revert hb <;> decide

lemma lub_single (b : GeomType) (hb : isSingleType b = true) (x y : GeomType)
    (hx : x = b ∨ x = multiOf b) (hy : y = b ∨ y = multiOf b) :
    lub x y = some (if x = multiOf b ∨ y = multiOf b then multiOf b else b) := by
  cases b <;> cases x <;> cases y <;> revert hb hx hy <;> decide

lemma widenAll_in_pair (b : GeomType) (hb : isSingleType b = true) :
    ∀ (ts : List GeomType) (t : GeomType),
      (t = b ∨ t = multiOf b) → (∀ u ∈ ts, u = b ∨ u = multiOf b) →
      widenAll t ts =
        .ok (if t = multiOf b ∨ multiOf b ∈ ts then multiOf b else b) := by
  intro ts
  induction ts with
  | nil =>
    intro t htv _
    rcases htv with h | h
    · rw [h]
      rw [if_neg]
      · rfl
      · rintro (hc | hc)
        · exact single_ne_multi b hb hc
        · exact List.not_mem_nil _ hc
    · rw [h]
      rw [if_pos (Or.inl rfl)]
      rfl
  | cons u us ih =>
    intro t htv hall
    have hu : u = b ∨ u = multiOf b := hall u (List.mem_cons_self _ _)
    have hlub := lub_single b hb t u htv hu
    have hw0 : (if t = multiOf b ∨ u = multiOf b then multiOf b else b) = b ∨
        (if t = multiOf b ∨ u = multiOf b then multiOf b else b) = multiOf b := by
      split
      · exact Or.inr rfl
      · exact Or.inl rfl
    have hstep : widenAll t (u :: us) =
        widenAll (if t = multiOf b ∨ u = multiOf b then multiOf b else b) us := by
      show (match lub t u with
        | some w => widenAll w us
        | none => Except.error "IncompatibleGeometryMix") =
        widenAll (if t = multiOf b ∨ u = multiOf b then multiOf b else b) us
      rw [hlub]
    rw [hstep, ih _ hw0 (fun v hv => hall v (List.mem_cons_of_mem _ hv))]
    have hmb := single_ne_multi b hb
    congr 1
    by_cases h1 : t = multiOf b
    · simp [h1, List.mem_cons]
    · by_cases h2 : u = multiOf b
      · simp [h1, h2, List.mem_cons]
      · have h2' : multiOf b ≠ u := fun hc => h2 hc.symm
        simp [h1, h2, h2', List.mem_cons, hmb]

lemma determineGeomType_widens (b : GeomType) (hb : isSingleType b = true)
    (geoms : List Geom)
    (hall : ∀ t ∈ presentTypes geoms, t = b ∨ t = multiOf b)
    (hmulti : multiOf b ∈ presentTypes geoms) :
    determineGeomType geoms = .ok (multiOf b) := by
  unfold determineGeomType
  cases hp : presentTypes geoms with
  | nil => rw [hp] at hmulti; exact absurd hmulti (List.not_mem_nil _)
  | cons t ts =>
    rw [hp] at hall hmulti
    show widenAll t ts = Except.ok (multiOf b)
    rw [widenAll_in_pair b hb ts t (hall t (List.mem_cons_self _ _))
      (fun u hu => hall u (List.mem_cons_of_mem _ hu))]
    congr 1
    rw [if_pos]
    rcases List.mem_cons.mp hmulti with h | h
    · exact Or.inl h.symm
    · exact Or.inr h

/-- C6: a tagged column whose decoded geometries mix a single type with its
multi-variant converts successfully — regardless of how the mixed types are
distributed across chunks, since the whole column is decoded and constructed
in one batch — to one output column tagged with the widened multi-variant
extension type, with the same chunk lengths as the input. -/
theorem c6_parse_wkb_column_widens_mixed_multi
    (field : Field) (column : ChunkedColumn) (geoms : List Geom) (b : GeomType)
    (hdec : from_wkb_array column.flatten = .ok geoms)
    (hb : isSingleType b = true)
    (hall : ∀ t ∈ presentTypes geoms, t = b ∨ t = multiOf b)
    (_hbase : b ∈ presentTypes geoms)
    (hmulti : multiOf b ∈ presentTypes geoms) :
    parse_wkb_column field column =
      .ok (⟨"geometry", some ((EXT_NAME_KEY, extensionName (multiOf b)) ::
          crsEntry (get_field_crs field))⟩,
        sliceToChunks (geoms.map Cell.geo) column) ∧
    (sliceToChunks (geoms.map Cell.geo) column).map List.length =
      column.map List.length := by
  have hdet := determineGeomType_widens b hb geoms hall hmulti
  have hcga : construct_geometry_array geoms (get_field_crs field) =
      .ok (⟨"geometry", some ((EXT_NAME_KEY, extensionName (multiOf b)) ::
          crsEntry (get_field_crs field))⟩, geoms.map Cell.geo) := by
    unfold construct_geometry_array
    rw [hdet]
  constructor
  · unfold parse_wkb_column
    simp only [parse_wkb_column_with, hdec, hcga]
  · rw [sliceToChunks_eq_splitLike]
    apply splitLike_map_length
    rw [List.length_map, from_wkb_array_length _ _ hdec, List.length_flatten]

/-- A one-chunk column mixing a Polygon payload and a MultiPolygon payload. -/
def samplePolyMixColumn : ChunkedColumn :=
  [[Cell.wkb (Geom.ofType .polygon), Cell.wkb (Geom.ofType .multiPolygon)]]

/-- Witness for C6: a column mixing Polygon and MultiPolygon rows converts to
a MultiPolygon-typed column with unchanged chunk lengths. -/
theorem c6_parse_wkb_column_widens_mixed_multi_witness :
    parse_wkb_column sampleWkbField samplePolyMixColumn =
      .ok (⟨"geometry",
          some ((EXT_NAME_KEY, extensionName (multiOf .polygon)) ::
            crsEntry (get_field_crs sampleWkbField))⟩,
        sliceToChunks
          ([Geom.ofType .polygon, Geom.ofType .multiPolygon].map Cell.geo)
          samplePolyMixColumn) ∧
    (sliceToChunks
        ([Geom.ofType .polygon, Geom.ofType .multiPolygon].map Cell.geo)
        samplePolyMixColumn).map List.length =
      samplePolyMixColumn.map List.length :=
  c6_parse_wkb_column_widens_mixed_multi sampleWkbField samplePolyMixColumn
    [Geom.ofType .polygon, Geom.ofType .multiPolygon] .polygon
    (by decide) (by decide) (by decide) (by decide) (by decide)

/-! ### C4 -/

/-- A deliberately inconsistent geometry-array constructor that returns a
flat array one row short: it exercises the re-slicing step of
`parse_wkb_column` on a flat array whose length differs from the input
column's total row count. -/
def shortConstruct (geoms : List Geom) (crs_str : Option String) :
    Except String (Field × List Cell) :=
  match construct_geometry_array geoms crs_str with
  | .error e => .error e
  | .ok (f, arr) => .ok (f, arr.take 1)

/-- A one-chunk column with two WKB point payloads. -/
def twoPointColumn : ChunkedColumn :=
  [[Cell.wkb (Geom.ofType .point), Cell.wkb (Geom.ofType .point)]]

/-- Counterexample for C4: when the constructor hands back a flat geometry
array of length 1 for a column with total row count 2 — exactly the
mismatch the claim is about — the re-slicing of `parse_wkb_column`
(`parse_wkb.py` lines 49-57) does not fail: it returns `.ok` with a silently
truncated chunked array whose chunk length sequence `[1]` differs from the
input's `[2]`. -/
theorem c4_counterexample_slicing_truncates_silently :
    shortConstruct [Geom.ofType .point, Geom.ofType .point]
        (get_field_crs sampleWkbField) =
      .ok (samplePointField, [Cell.geo (Geom.ofType .point)]) ∧
    ([Cell.geo (Geom.ofType .point)].length ≠ twoPointColumn.flatten.length) ∧
    parse_wkb_column_with shortConstruct sampleWkbField twoPointColumn =
      .ok (samplePointField, [[Cell.geo (Geom.ofType .point)]]) ∧
    ([[Cell.geo (Geom.ofType .point)]] : ChunkedColumn).map List.length ≠
      twoPointColumn.map List.length := by
  decide

/-- C4 as amended: the re-slicing step of `parse_wkb_column` performs no
length-consistency check at all.  Whatever flat array the constructor
returns, the conversion succeeds, and pyarrow-style clamping slicing
consumes exactly `min` of the flat array length and the input column's total
row count — a too-short flat array yields a silently truncated chunked
array, and a too-long one has its excess silently dropped. -/
theorem c4_amended_slicing_never_fails
    (construct : List Geom → Option String → Except String (Field × List Cell))
    (field : Field) (column : ChunkedColumn)
    (geoms : List Geom) (nf : Field) (flat : List Cell)
    (hdec : from_wkb_array column.flatten = .ok geoms)
    (hcon : construct geoms (get_field_crs field) = .ok (nf, flat)) :
    parse_wkb_column_with construct field column =
      .ok (nf, sliceToChunks flat column) ∧
    ((sliceToChunks flat column).flatten).length =
      min flat.length column.flatten.length := by
  constructor
  · simp only [parse_wkb_column_with, hdec, hcon]
  · rw [sliceToChunks_eq_splitLike, splitLike_flatten_length, List.length_flatten]

/-- Witness for the amended C4 at the short constructor and a two-row,
one-chunk column: the conversion succeeds and only `min 1 2 = 1` rows
survive. -/
theorem c4_amended_slicing_never_fails_witness :
    parse_wkb_column_with shortConstruct sampleWkbField twoPointColumn =
      .ok (samplePointField,
        sliceToChunks [Cell.geo (Geom.ofType .point)] twoPointColumn) ∧
    ((sliceToChunks [Cell.geo (Geom.ofType .point)] twoPointColumn).flatten).length =
      min ([Cell.geo (Geom.ofType .point)] : List Cell).length
        twoPointColumn.flatten.length :=
  c4_amended_slicing_never_fails shortConstruct sampleWkbField twoPointColumn
    [Geom.ofType .point, Geom.ofType .point] samplePointField
    [Cell.geo (Geom.ofType .point)] (by decide) (by decide)

/-! ### Layer embedding (`src/lonboard/layer.py`) -/

/-- A value proposed for a per-row accessor trait.  The constructors record
the Python runtime shape the validators dispatch on via `isinstance`:
pyarrow `Array`, pyarrow `ChunkedArray`, plain list, numpy array, or a
scalar.  For the sized shapes only the length is relevant. -/
inductive ProposedValue where
  | paArray (len : Nat)
  | paChunkedArray (len : Nat)
  | pyList (len : Nat)
  | numpyArray (len : Nat)
  | scalar (v : Int)
  deriving DecidableEq

/-- `isinstance(value, (pa.ChunkedArray, pa.Array))`. -/
def ProposedValue.isPyarrow : ProposedValue → Bool
  | .paArray _ => true
  | .paChunkedArray _ => true
  | _ => false

/-- `len(value)`; the validators only apply it to pyarrow shapes. -/
def ProposedValue.len : ProposedValue → Nat
  | .paArray n => n
  | .paChunkedArray n => n
  | .pyList n => n
  | .numpyArray n => n
  | .scalar _ => 0

/-- `len(self.table)` for a pyarrow table: its row count (0 for a table with
no columns). -/
def numRows : Table → Nat
  | [] => 0
  | (_, c) :: _ => (c.map List.length).sum

/-- The shared body of every accessor length validator
(`layer.py`, e.g. lines 76-84): when the proposed value is a pyarrow
`Array` or `ChunkedArray` whose length differs from the table's row count,
raise a `TraitError` with the accessor-specific message; otherwise return
the proposed value unchanged. -/
def validateAccessorLength (msg : String) (self_table : Table)
    (value : ProposedValue) : Except String ProposedValue :=
  if value.isPyarrow then
    if value.len ≠ numRows self_table then .error msg else .ok value
  else .ok value

def ScatterplotLayer.validate_get_radius_length :
    Table → ProposedValue → Except String ProposedValue :=
  validateAccessorLength "`get_radius` must have same length as table"

def ScatterplotLayer.validate_get_fill_color_length :
    Table → ProposedValue → Except String ProposedValue :=
  validateAccessorLength "`get_fill_color` must have same length as table"

def ScatterplotLayer.validate_get_line_color_length :
    Table → ProposedValue → Except String ProposedValue :=
  validateAccessorLength "`get_line_color` must have same length as table"

def ScatterplotLayer.validate_get_line_width_length :
    Table → ProposedValue → Except String ProposedValue :=
  validateAccessorLength "`get_line_width` must have same length as table"

def PathLayer.validate_get_color_length :
    Table → ProposedValue → Except String ProposedValue :=
  validateAccessorLength "`get_color` must have same length as table"

def PathLayer.validate_get_width_length :
    Table → ProposedValue → Except String ProposedValue :=
  validateAccessorLength "`get_width` must have same length as table"

def SolidPolygonLayer.validate_get_elevation_length :
    Table → ProposedValue → Except String ProposedValue :=
  validateAccessorLength "`get_elevation` must have same length as table"

def SolidPolygonLayer.validate_get_fill_color_length :
    Table → ProposedValue → Except String ProposedValue :=
  validateAccessorLength "`get_fill_color` must have same length as table"

def SolidPolygonLayer.validate_get_line_color_length :
    Table → ProposedValue → Except String ProposedValue :=
  validateAccessorLength "`get_line_color` must have same length as table"

/-! ### C8 -/

/-- A one-column layer table with two rows of point geometry. -/
def sampleLayerTable : Table :=
  [(⟨"geometry", some [(EXT_NAME_KEY, EXTENSION_NAME.POINT)]⟩,
    [[Cell.geo (Geom.ofType .point)], [Cell.geo (Geom.ofType .point)]])]

/-- C8: for every layer, assigning any of the per-row accessor properties a
pyarrow `Array` or `ChunkedArray` whose length differs from the layer
table's row count raises a `TraitError`, and an array of exactly the table's
row count is accepted unchanged. -/
theorem c8_accessor_length_enforced
    (tbl : Table) (v : ProposedValue) (n : Nat)
    (hpa : v = .paArray n ∨ v = .paChunkedArray n) :
    (n ≠ numRows tbl →
      ScatterplotLayer.validate_get_radius_length tbl v =
        .error "`get_radius` must have same length as table" ∧
      ScatterplotLayer.validate_get_fill_color_length tbl v =
        .error "`get_fill_color` must have same length as table" ∧
      ScatterplotLayer.validate_get_line_color_length tbl v =
        .error "`get_line_color` must have same length as table" ∧
      ScatterplotLayer.validate_get_line_width_length tbl v =
        .error "`get_line_width` must have same length as table" ∧
      PathLayer.validate_get_color_length tbl v =
        .error "`get_color` must have same length as table" ∧
      PathLayer.validate_get_width_length tbl v =
        .error "`get_width` must have same length as table" ∧
      SolidPolygonLayer.validate_get_elevation_length tbl v =
        .error "`get_elevation` must have same length as table" ∧
      SolidPolygonLayer.validate_get_fill_color_length tbl v =
        .error "`get_fill_color` must have same length as table" ∧
      SolidPolygonLayer.validate_get_line_color_length tbl v =
        .error "`get_line_color` must have same length as table") ∧
    (n = numRows tbl →
      ScatterplotLayer.validate_get_radius_length tbl v = .ok v ∧
      ScatterplotLayer.validate_get_fill_color_length tbl v = .ok v ∧
      ScatterplotLayer.validate_get_line_color_length tbl v = .ok v ∧
      ScatterplotLayer.validate_get_line_width_length tbl v = .ok v ∧
      PathLayer.validate_get_color_length tbl v = .ok v ∧
      PathLayer.validate_get_width_length tbl v = .ok v ∧
      SolidPolygonLayer.validate_get_elevation_length tbl v = .ok v ∧
      SolidPolygonLayer.validate_get_fill_color_length tbl v = .ok v ∧
      SolidPolygonLayer.validate_get_line_color_length tbl v = .ok v) := by
  rcases hpa with h | h <;> subst h <;> constructor <;> intro hn <;>
    refine ⟨?_, ?_, ?_, ?_, ?_, ?_, ?_, ?_, ?_⟩ <;>
    simp [ScatterplotLayer.validate_get_radius_length,
      ScatterplotLayer.validate_get_fill_color_length,
      ScatterplotLayer.validate_get_line_color_length,
      ScatterplotLayer.validate_get_line_width_length,
      PathLayer.validate_get_color_length,
      PathLayer.validate_get_width_length,
      SolidPolygonLayer.validate_get_elevation_length,
      SolidPolygonLayer.validate_get_fill_color_length,
      SolidPolygonLayer.validate_get_line_color_length,
      validateAccessorLength, ProposedValue.isPyarrow, ProposedValue.len, hn]

/-- Witness for C8: a pyarrow array of length 3 against a 2-row table is
rejected by `get_radius` validation. -/
theorem c8_accessor_length_enforced_witness :
    ScatterplotLayer.validate_get_radius_length sampleLayerTable
        (.paArray 3) =
      .error "`get_radius` must have same length as table" :=
  ((c8_accessor_length_enforced sampleLayerTable (.paArray 3) 3
    (Or.inl rfl)).1 (by decide)).1

/-! ### C10 -/

/-- C10: the accessor length validators check length only when the proposed
value is a pyarrow `Array` or `ChunkedArray`; every value of any other shape
(scalar, plain list, numpy array) is accepted unchanged regardless of its
length relative to the table's row count. -/
theorem c10_non_pyarrow_values_skip_length_check
    (tbl : Table) (v : ProposedValue) (h : v.isPyarrow = false) :
    ScatterplotLayer.validate_get_radius_length tbl v = .ok v ∧
    ScatterplotLayer.validate_get_fill_color_length tbl v = .ok v ∧
    ScatterplotLayer.validate_get_line_color_length tbl v = .ok v ∧
    ScatterplotLayer.validate_get_line_width_length tbl v = .ok v ∧
    PathLayer.validate_get_color_length tbl v = .ok v ∧
    PathLayer.validate_get_width_length tbl v = .ok v ∧
    SolidPolygonLayer.validate_get_elevation_length tbl v = .ok v ∧
    SolidPolygonLayer.validate_get_fill_color_length tbl v = .ok v ∧
    SolidPolygonLayer.validate_get_line_color_length tbl v = .ok v := by
  refine ⟨?_, ?_, ?_, ?_, ?_, ?_, ?_, ?_, ?_⟩ <;>
    simp [ScatterplotLayer.validate_get_radius_length,
      ScatterplotLayer.validate_get_fill_color_length,
      ScatterplotLayer.validate_get_line_color_length,
      ScatterplotLayer.validate_get_line_width_length,
      PathLayer.validate_get_color_length,
      PathLayer.validate_get_width_length,
      SolidPolygonLayer.validate_get_elevation_length,
      SolidPolygonLayer.validate_get_fill_color_length,
      SolidPolygonLayer.validate_get_line_color_length,
      validateAccessorLength, h]

/-- Witness for C10: a plain list of length 999 against a 2-row table passes
`get_width` validation untouched. -/
theorem c10_non_pyarrow_values_skip_length_check_witness :
    PathLayer.validate_get_width_length sampleLayerTable (.pyList 999) =
      .ok (.pyList 999) :=
  (c10_non_pyarrow_values_skip_length_check sampleLayerTable
    (.pyList 999) rfl).2.2.2.2.2.1

/-! ### C9 -/

/-- The closed set of native geometry extension names. -/
def GEOMETRY_EXTENSION_NAMES : List String :=
  [EXTENSION_NAME.POINT, EXTENSION_NAME.MULTIPOINT, EXTENSION_NAME.LINESTRING,
   EXTENSION_NAME.MULTILINESTRING, EXTENSION_NAME.POLYGON,
   EXTENSION_NAME.MULTIPOLYGON]

/-- Modelled from the spec: `PyarrowTableTrait` (`lonboard.traits`, not under
`src/`), the table trait used by every layer's `table` attribute.  It is
parameterized by `allowed_geometry_types`, and traitlets runs trait
validation both at widget construction and on every later assignment to the
trait; the trait rejects a proposed table carrying a geometry-typed column
whose extension name lies outside the allowed set (spec sections 1 and 6:
the widget layer exposes per-layer property schemas and validation rules). -/
def PyarrowTableTrait.validate (allowed_geometry_types : List String)
    (t : Table) : Except String Table :=
  if t.all (fun p =>
      match fieldExtName p.1 with
      | some n => !GEOMETRY_EXTENSION_NAMES.contains n ||
          allowed_geometry_types.contains n
      | none => true)
  then .ok t
  else .error "geometry type not allowed by this layer"

/-- A layer's state: the table currently held by its `table` trait. -/
structure LayerState where
  table : Table
  deriving DecidableEq

/-- Layer construction with a proposed table: traitlets validates the table
through the layer's `PyarrowTableTrait` before storing it. -/
def layerInit (allowed : List String) (t : Table) : Except String LayerState :=
  match PyarrowTableTrait.validate allowed t with
  | .error e => .error e
  | .ok t' => .ok ⟨t'⟩

/-- Assignment of a new table to an existing layer: traitlets re-runs the
same trait validation. -/
def layerSetTable (allowed : List String) (_s : LayerState) (t : Table) :
    Except String LayerState :=
  layerInit allowed t

/-- `ScatterplotLayer.table`'s allowed geometry types (`layer.py` lines
42-44). -/
def ScatterplotLayer.allowed_geometry_types : List String :=
  [EXTENSION_NAME.POINT, EXTENSION_NAME.MULTIPOINT]

/-- `PathLayer.table`'s allowed geometry types (`layer.py` lines 122-127). -/
def PathLayer.allowed_geometry_types : List String :=
  [EXTENSION_NAME.LINESTRING, EXTENSION_NAME.MULTILINESTRING]

/-- `SolidPolygonLayer.table`'s allowed geometry types (`layer.py` lines
175-177). -/
def SolidPolygonLayer.allowed_geometry_types : List String :=
  [EXTENSION_NAME.POLYGON, EXTENSION_NAME.MULTIPOLYGON]

/-- The geometry-type class invariant: every geometry-typed field of the
table carries an extension name from the allowed set. -/
def geometryTypesOk (allowed : List String) (t : Table) : Prop :=
  ∀ p ∈ t, ∀ n, fieldExtName p.1 = some n →
    n ∈ GEOMETRY_EXTENSION_NAMES → n ∈ allowed

lemma validate_ok_invariant (allowed : List String) (t t' : Table)
    (h : PyarrowTableTrait.validate allowed t = .ok t') :
    t' = t ∧ geometryTypesOk allowed t := by
  unfold PyarrowTableTrait.validate at h
  split at h
  next hall =>
    injection h with h
    refine ⟨h.symm, ?_⟩
    intro p hp n hn hgeom
    have hp' := List.all_eq_true.mp hall p hp
    rw [hn] at hp'
    rcases Bool.or_eq_true_iff.mp hp' with hl | hr
    · exfalso
      have hc : GEOMETRY_EXTENSION_NAMES.contains n = true :=
        List.elem_iff.mpr hgeom
      rw [hc] at hl
      exact Bool.noConfusion hl
    · exact List.elem_iff.mp hr
  next => exact Except.noConfusion h

lemma layerInit_invariant (allowed : List String) (t : Table) (s : LayerState)
    (h : layerInit allowed t = .ok s) : geometryTypesOk allowed s.table := by
  unfold layerInit at h
  cases hv : PyarrowTableTrait.validate allowed t with
  | error e => rw [hv] at h; exact Except.noConfusion h
  | ok t' =>
    rw [hv] at h
    injection h with h
    obtain ⟨ht', hinv⟩ := validate_ok_invariant allowed t t' hv
    rw [← h]
    show geometryTypesOk allowed t'
    rw [ht']
    exact hinv

/-- C9: each layer's `table` trait constrains the geometry extension types
its table may carry — ScatterplotLayer to point and multipoint, PathLayer to
linestring and multilinestring, SolidPolygonLayer to polygon and
multipolygon — and the restriction is a class invariant established at
construction and re-established on every table assignment. -/
theorem c9_layer_geometry_type_invariant :
    ScatterplotLayer.allowed_geometry_types =
      [EXTENSION_NAME.POINT, EXTENSION_NAME.MULTIPOINT] ∧
    PathLayer.allowed_geometry_types =
      [EXTENSION_NAME.LINESTRING, EXTENSION_NAME.MULTILINESTRING] ∧
    SolidPolygonLayer.allowed_geometry_types =
      [EXTENSION_NAME.POLYGON, EXTENSION_NAME.MULTIPOLYGON] ∧
    (∀ allowed t s, layerInit allowed t = .ok s →
      geometryTypesOk allowed s.table) ∧
    (∀ allowed s₀ t s, layerSetTable allowed s₀ t = .ok s →
      geometryTypesOk allowed s.table) :=
  ⟨rfl, rfl, rfl, layerInit_invariant,
    fun allowed _ t s h => layerInit_invariant allowed t s h⟩

/-- Witness for C9: constructing a ScatterplotLayer from a point-typed table
succeeds with the invariant holding. -/
theorem c9_layer_geometry_type_invariant_witness :
    geometryTypesOk ScatterplotLayer.allowed_geometry_types
      (LayerState.mk sampleLayerTable).table :=
  c9_layer_geometry_type_invariant.2.2.2.1
    ScatterplotLayer.allowed_geometry_types sampleLayerTable
    (LayerState.mk sampleLayerTable) (by decide)

end Lonboard
